import Mathlib

/-!
Verification development for the Case_SS ingestion pipeline.

Shallow embedding of:
* `src/minio_handler.py` — the object-store gateway (`MinioHandler.save_file_to_bucket`);
* `src/etls/cvm_etl.py` — the financial-statement reconciliation, enrichment and
  quarterly-metric-derivation stages of `CVMETL`.

Object keys are modelled as lists of path components (the Python code manipulates
them as `/`-separated strings via `pathlib.Path`); byte payloads as `List Nat`;
pandas `NaN` as `Option.none`.  The store holds the latest version of every
object (the bucket has versioning enabled, so `put_object` on an existing key
replaces the version that `stat_object` / `list_objects` observe).
-/

namespace CaseSS

/-! ## Object store gateway (`src/minio_handler.py`) -/

/-- A calendar date, as carried by the `DT_REFER` / `DT_FIM_EXERC` columns
after `pd.to_datetime(...).dt.date`. -/
structure Date where
  year : Nat
  month : Nat
  day : Nat
deriving Repr, DecidableEq

/-- Monotone numeric encoding of a date, used to compare dates
(`Series.max` over a date column). -/
def Date.toKey (d : Date) : Nat :=
  d.year * 10000 + d.month * 100 + d.day

/-- Modelled from the spec: `fmts.get_quarter` lives in `formats.py`, which is
not among the sources.  Per the spec (§4.3), the quarter is derived from the
date by the fixed boundary rule: month ≤ 3 → Q1, ≤ 6 → Q2, ≤ 9 → Q3,
else Q4. -/
def get_quarter (d : Date) : Nat :=
  if d.month ≤ 3 then 1
  else if d.month ≤ 6 then 2
  else if d.month ≤ 9 then 3
  else 4

/-- `fmts.CVMDocumentAggregationType`: a financial statement reports either a
single legal entity (Individual) or the consolidated group (Consolidado). -/
inductive CVMDocumentAggregationType where
  | INDIVIDUAL
  | CONSOLIDADO
deriving Repr, DecidableEq

/-- The aggregation type that is not `a`. -/
def CVMDocumentAggregationType.other :
    CVMDocumentAggregationType → CVMDocumentAggregationType
  | .INDIVIDUAL => .CONSOLIDADO
  | .CONSOLIDADO => .INDIVIDUAL

/-! ## Statement reconciliation stage (`CVMETL.FS_filter_and_clean`) -/

/-- One account-line observation, with the columns this development uses:
`CNPJ_CIA`, `ORDEM_EXERC`, `DT_REFER`, `DT_FIM_EXERC`, `CD_CONTA`,
`VL_CONTA`, `ESCALA_MOEDA`. -/
structure StatementRow where
  cnpj_cia : String
  ordem_exerc : String
  dt_refer : Date
  dt_fim_exerc : Date
  cd_conta : String
  vl_conta : Int
  escala_moeda : String
deriving Repr, DecidableEq

/-- The result of `pd.read_csv` on one raw file: the observed column list and
the parsed rows. -/
structure ParsedCSV where
  columns : List String
  rows : List StatementRow
deriving Repr, DecidableEq

/-- `EXERCISE_PERIOD_TO_CONSIDER` in `FS_filter_and_clean`. -/
def EXERCISE_PERIOD_TO_CONSIDER : String := "ÚLTIMO"

/-- The message of the schema assertion (line 263 of `cvm_etl.py`). -/
def schemaMismatchMsg : String :=
  "Downloaded IPE file schema doesnt match the one defined at DocumentSchemas.IPE"

/-- The message of the empty-after-CNPJ-filter assertion (line 267 of
`cvm_etl.py`); it interpolates the file path and the configured CNPJ. -/
def emptyFilterMsg (file_path formatted_cnpj : String) : String :=
  "Failure while filtering the DF for file " ++ file_path ++
    ". Please confirm the provided company CNPJ " ++ formatted_cnpj ++
    " in the environment file."

/-- The per-file body of `FS_filter_and_clean` (lines 256-271 of
`cvm_etl.py`): check the observed columns against the declared schema's
column list, filter to the configured company CNPJ, assert the filter kept at
least one row, then keep only the final-exercise-period rows.  A failed
`assert` is an `Except.error`. -/
def FS_filter_and_clean_file (schema_columns : List String) (formatted_cnpj : String)
    (file_path : String) (csv : ParsedCSV) : Except String (List StatementRow) :=
  if !(csv.columns == schema_columns) then
    .error schemaMismatchMsg
  else
    let filtered := csv.rows.filter (fun r => r.cnpj_cia == formatted_cnpj)
    if filtered.isEmpty then
      .error (emptyFilterMsg file_path formatted_cnpj)
    else
      .ok (filtered.filter (fun r => r.ordem_exerc == EXERCISE_PERIOD_TO_CONSIDER))

/-! ## Statement enrichment stage (`CVMETL.FS_enrich`) -/

/-- `ESCALA_MOEDA_MAPPING` (lines 330-335 of `cvm_etl.py`): the manually
curated currency-scale lookup. -/
def ESCALA_MOEDA_MAPPING : List (String × Int) :=
  [("UNIDADE", 1),
   ("MIL", 1000),
   ("MILHOES", 1000000),
   ("MILHÕES", 1000000)]

/-- `Series.map` with a dict: keys absent from the mapping become `NaN`
(`none`). -/
def escalaMoedaMultiplier (escala_moeda : String) : Option Int :=
  ESCALA_MOEDA_MAPPING.lookup escala_moeda

/-- The `enr_adjusted_account_value` column (line 356 of `cvm_etl.py`):
`VL_CONTA * ESCALA_MOEDA.map(ESCALA_MOEDA_MAPPING)`.  Multiplication by `NaN`
propagates `NaN` (`none`); no error is raised. -/
def adjustedAccountValue (vl_conta : Int) (escala_moeda : String) : Option Int :=
  (escalaMoedaMultiplier escala_moeda).map (fun m => vl_conta * m)

/-- A row of the two consolidated enriched tables, with the columns this
development uses. -/
structure EnrichedRow where
  cnpj_cia : String
  dt_refer : Date
  dt_fim_exerc : Date
  cd_conta : String
  enr_adjusted_account_value : Option Int
  enr_aggregation_type : CVMDocumentAggregationType
deriving Repr, DecidableEq

/-- One silver-cleaned table: its bucket file path, the aggregation-type
provenance metadata recovered from the artifact (lines 344-348 of
`cvm_etl.py`), and its rows. -/
structure CleanedTable where
  file_path : String
  aggregation_type : CVMDocumentAggregationType
  rows : List StatementRow
deriving Repr, DecidableEq

/-- `curr_file_path.split('/')[-1]` (line 378 of `cvm_etl.py`), the dict key
of the per-aggregation table dicts. -/
def basename (p : String) : String :=
  ((p.toList.splitOn '/').getLastD []).asString

/-- Python-dict assignment `d[k] = v`: replaces the value in place when the
key exists (a same-named table silently overwrites the earlier one),
otherwise appends in insertion order. -/
def dictInsert {α : Type} (d : List (String × α)) (k : String) (v : α) :
    List (String × α) :=
  if d.any (fun p => p.1 == k) then
    d.map (fun p => if p.1 == k then (k, v) else p)
  else
    d ++ [(k, v)]

/-- The per-row enrichment of `FS_enrich` (lines 350-376 of `cvm_etl.py`):
compute the adjusted account value and stamp the table's aggregation type. -/
def enrichRow (agg : CVMDocumentAggregationType) (r : StatementRow) : EnrichedRow :=
  { cnpj_cia := r.cnpj_cia
    dt_refer := r.dt_refer
    dt_fim_exerc := r.dt_fim_exerc
    cd_conta := r.cd_conta
    enr_adjusted_account_value := adjustedAccountValue r.vl_conta r.escala_moeda
    enr_aggregation_type := agg }

/-- Enrich one cleaned table. -/
def enrichTable (t : CleanedTable) : List EnrichedRow :=
  t.rows.map (enrichRow t.aggregation_type)

/-- Specification helper (not itself source code): the enriched rows of the
input tables whose provenance aggregation type is `agg`, concatenated in
input order.  When the input basenames are pairwise distinct this equals the
concatenation the program builds through its basename-keyed dict (proved
below). -/
def enrichedRowsOfAgg (tables : List CleanedTable) (agg : CVMDocumentAggregationType) :
    List EnrichedRow :=
  ((tables.filter (fun t => decide (t.aggregation_type = agg))).map enrichTable).flatten

/-- The body of the file loop of `FS_enrich` (lines 342-386 of `cvm_etl.py`)
for one table: enrich it and store it in the per-aggregation dict under its
file basename.  The accumulator is
`(agg_individual_dfs, agg_consolidado_dfs)`. -/
def bucketStep
    (acc : List (String × List EnrichedRow) × List (String × List EnrichedRow))
    (t : CleanedTable) :
    List (String × List EnrichedRow) × List (String × List EnrichedRow) :=
  match t.aggregation_type with
  | .INDIVIDUAL => (dictInsert acc.1 (basename t.file_path) (enrichTable t), acc.2)
  | .CONSOLIDADO => (acc.1, dictInsert acc.2 (basename t.file_path) (enrichTable t))

/-- The two basename-keyed dicts after the file loop of `FS_enrich`. -/
def FS_enrich_buckets (tables : List CleanedTable) :
    List (String × List EnrichedRow) × List (String × List EnrichedRow) :=
  tables.foldl bucketStep ([], [])

/-- `pd.concat(<dict>, ignore_index=True)` (lines 390-392 of `cvm_etl.py`):
concatenates the dict's values in insertion order and raises `ValueError`
on an empty dict. -/
def concatDict (d : List (String × List EnrichedRow)) : Except String (List EnrichedRow) :=
  if d.isEmpty then .error "No objects to concatenate"
  else .ok ((d.map (fun p => p.2)).flatten)

/-- One step of the running maximum over the `DT_FIM_EXERC` column. -/
def maxStep (acc : Option Date) (r : EnrichedRow) : Option Date :=
  match acc with
  | none => some r.dt_fim_exerc
  | some m => some (if m.toKey < r.dt_fim_exerc.toKey then r.dt_fim_exerc else m)

/-- `curr_df[DT_FIM_EXERC].max()`: the maximum period-end date of the rows,
`none` on an empty table (`NaN`). -/
def maxEndOfPeriod (rows : List EnrichedRow) : Option Date :=
  rows.foldl maxStep none

/-- One consolidated enriched output table with the reference date it is
keyed by (line 405 of `cvm_etl.py`). -/
structure EnrichedOutput where
  rows : List EnrichedRow
  ref_date : Option Date
deriving Repr, DecidableEq

/-- `FS_enrich` (lines 336-430 of `cvm_etl.py`): run the file loop into the
two basename-keyed dicts, then concatenate — the consolidado dict first
(line 390), then the individual dict (line 392), either raising when its dict
is empty — and key each output with the maximum observed period-end date
(line 405).  The successful result is the
`(Individual, Consolidado)` pair of consolidated tables. -/
def FS_enrich (tables : List CleanedTable) :
    Except String (EnrichedOutput × EnrichedOutput) :=
  let buckets := FS_enrich_buckets tables
  match concatDict buckets.2 with
  | .error e => .error e
  | .ok joined_consolidado =>
    match concatDict buckets.1 with
    | .error e => .error e
    | .ok joined_individual =>
      .ok ({ rows := joined_individual, ref_date := maxEndOfPeriod joined_individual },
           { rows := joined_consolidado, ref_date := maxEndOfPeriod joined_consolidado })

/-! ## Quarterly metrics derivation (`CVMETL.calculate_detailed_financials_quarterly`) -/

/-- Python's `str.startswith`: `s` starts with `code`, as a character-list
prefix test. -/
def strStartsWith (s code : String) : Bool :=
  code.toList.isPrefixOf s.toList

/-- `Series.sum()` over the adjusted-account-value column: pandas sums
with `skipna=True`, and the sum of an empty selection is `0`. -/
def sumAdjusted (l : List (Option Int)) : Int :=
  (l.map (fun x => x.getD 0)).sum

/-- `get_account_value` (lines 461-468 of `cvm_etl.py`): select the rows whose
`CD_CONTA` equals the code (`exact = true`) or starts with the code
(`exact = false`), and sum their adjusted account values; an unmatched group
yields `0` (the guard `result if not pd.isna(result) else 0` of the source is
subsumed: with `skipna` the sum is never `NaN`). -/
def get_account_value (group_df : List EnrichedRow) (account_code : String)
    (exact : Bool) : Int :=
  let mask : EnrichedRow → Bool := fun r =>
    if exact then r.cd_conta == account_code
    else strStartsWith r.cd_conta account_code
  sumAdjusted ((group_df.filter mask).map (fun r => r.enr_adjusted_account_value))

/-- One row of the gold-serving quarterly table (lines 502-519 of
`cvm_etl.py`). -/
structure QuarterlyMetricRecord where
  issuer_cnpj : String
  date : Date
  quarter : Nat
  year : Nat
  revenue : Int
  ebitda : Int
  ebit : Int
  depreciation : Int
  net_debt : Int
  total_debt : Int
  debt_short_term : Int
  debt_long_term : Int
  cash : Int
  interest_paid : Int
  capex : Int
  wc_change : Int
deriving Repr, DecidableEq

/-- The body of the group loop of `calculate_detailed_financials_quarterly`
(lines 473-519 of `cvm_etl.py`) for one `(CNPJ_CIA, DT_REFER)` group. -/
def mkQuarterlyRecord (cnpj : String) (dt_refer : Date) (group : List EnrichedRow) :
    QuarterlyMetricRecord :=
  let revenue := get_account_value group "3.01" true
  let ebit := get_account_value group "3.05" true
  let depreciation := get_account_value group "3.04.04" true
  let ebitda := ebit + depreciation
  let debt_st := get_account_value group "2.01.04" false
  let debt_lt := get_account_value group "2.02.01" false
  let cash := get_account_value group "1.01.01" true
  let total_debt := debt_st + debt_lt
  let net_debt := total_debt - cash
  let interest_cf := get_account_value group "6.01.02.02" false
  let interest_is := get_account_value group "3.06.02" true
  let interest_paid := if interest_cf ≠ 0 then interest_cf else interest_is
  let capex := get_account_value group "6.02.01" false
  let wc_change := get_account_value group "6.01.02" false
  { issuer_cnpj := cnpj
    date := dt_refer
    quarter := get_quarter dt_refer
    year := dt_refer.year
    revenue := revenue
    ebitda := ebitda
    ebit := ebit
    depreciation := depreciation
    net_debt := net_debt
    total_debt := total_debt
    debt_short_term := debt_st
    debt_long_term := debt_lt
    cash := cash
    interest_paid := |interest_paid|
    capex := |capex|
    wc_change := wc_change }

/-- The distinct `(CNPJ_CIA, DT_REFER)` keys of `df.groupby(group_cols)`. -/
def groupKeys (df : List EnrichedRow) : List (String × Date) :=
  (df.map (fun r => (r.cnpj_cia, r.dt_refer))).dedup

/-- `calculate_detailed_financials_quarterly` on one consolidated enriched
table (lines 470-521 of `cvm_etl.py`): one record per
`(CNPJ_CIA, DT_REFER)` group. -/
def calculate_detailed_financials_quarterly (df : List EnrichedRow) :
    List QuarterlyMetricRecord :=
  (groupKeys df).map
    (fun k => mkQuarterlyRecord k.1 k.2
      (df.filter (fun r => decide ((r.cnpj_cia, r.dt_refer) = k))))

/-! ## Demo data shared by concrete instances -/

/-- A demo enriched row holding one account observation. -/
def demoRow (code : String) (v : Int) : EnrichedRow :=
  { cnpj_cia := "11.111.111/0001-11"
    dt_refer := ⟨2024, 3, 31⟩
    dt_fim_exerc := ⟨2024, 3, 31⟩
    cd_conta := code
    enr_adjusted_account_value := some v
    enr_aggregation_type := .CONSOLIDADO }

/-- A demo raw statement row for company `cnpj`. -/
def demoStmtRow (cnpj : String) : StatementRow :=
  { cnpj_cia := cnpj
    ordem_exerc := "ÚLTIMO"
    dt_refer := ⟨2024, 3, 31⟩
    dt_fim_exerc := ⟨2024, 3, 31⟩
    cd_conta := "3.01"
    vl_conta := 7
    escala_moeda := "MIL" }

/-- A demo group whose cash-flow interest rows sum to zero and whose
income-statement interest row is `-50`. -/
def interestDemoGroup : List EnrichedRow :=
  [demoRow "6.01.02.02.01" 30, demoRow "6.01.02.02.02" (-30), demoRow "3.06.02" (-50)]

/-- Two demo cleaned tables with distinct basenames, one per aggregation
type. -/
def c5DemoTables : List CleanedTable :=
  [{ file_path := "silver/cleaned/i.parquet"
     aggregation_type := .INDIVIDUAL
     rows := [demoStmtRow "11.111.111/0001-11"] },
   { file_path := "silver/cleaned/c.parquet"
     aggregation_type := .CONSOLIDADO
     rows := [demoStmtRow "22.222.222/0001-22"] }]

/-- Three demo cleaned tables of which the first two share the file basename
`t.parquet`, so the second overwrites the first in the basename-keyed dict. -/
def c5CollidingTables : List CleanedTable :=
  [{ file_path := "silver/cleaned/t.parquet"
     aggregation_type := .INDIVIDUAL
     rows := [demoStmtRow "11.111.111/0001-11"] },
   { file_path := "silver/enriched/t.parquet"
     aggregation_type := .INDIVIDUAL
     rows := [demoStmtRow "22.222.222/0001-22"] },
   { file_path := "silver/cleaned/c.parquet"
     aggregation_type := .CONSOLIDADO
     rows := [demoStmtRow "33.333.333/0001-33"] }]

/-- A demo input set holding only Individual tables. -/
def c5IndOnlyTables : List CleanedTable :=
  [{ file_path := "silver/cleaned/i.parquet"
     aggregation_type := .INDIVIDUAL
     rows := [demoStmtRow "11.111.111/0001-11"] }]

/-! ## Claims -/

/-- Claim C2: the enrichment stage's adjusted account value is
`VL_CONTA` times the constant the `ESCALA_MOEDA_MAPPING` lookup assigns
(`MIL` with `VL_CONTA = 1000` gives `1000000`, `UNIDADE` gives `1000`), but for
a unit absent from the lookup table the stage does NOT raise: `Series.map`
silently yields `NaN` (`none`), so the retained row has an undefined adjusted
value.  This theorem evaluates the code at the failing input. -/
theorem c2_scale_mapping_behaviour :
    adjustedAccountValue 1000 "MIL" = some 1000000
    ∧ adjustedAccountValue 1000 "UNIDADE" = some 1000
    ∧ adjustedAccountValue 5 "BILHOES" = none := by
  decide

/-- Claim C3: `get_account_value` sums row-wise (so every selected row
contributes), an exact match selects only rows whose `CD_CONTA` is
string-equal (on `{3.01 ↦ 100, 3.010 ↦ 999}` the exact match on `3.01`
returns `100`, the starts-with match returns `1099`), and a group with no
matching row yields `0` in either mode rather than an error. -/
theorem c3_exact_vs_prefix_matching :
    (∀ (g₁ g₂ : List EnrichedRow) (code : String) (exact : Bool),
        get_account_value (g₁ ++ g₂) code exact
          = get_account_value g₁ code exact + get_account_value g₂ code exact)
    ∧ (∀ (g : List EnrichedRow) (code : String),
        (∀ r ∈ g, r.cd_conta ≠ code) → get_account_value g code true = 0)
    ∧ (∀ (g : List EnrichedRow) (code : String),
        (∀ r ∈ g, strStartsWith r.cd_conta code = false) →
          get_account_value g code false = 0)
    ∧ get_account_value [demoRow "3.01" 100, demoRow "3.010" 999] "3.01" true = 100
    ∧ get_account_value [demoRow "3.01" 100, demoRow "3.010" 999] "3.01" false = 1099 := by
  refine ⟨?_, ?_, ?_, by decide, by decide⟩
  · intro g₁ g₂ code exact
    simp [get_account_value, sumAdjusted, List.filter_append]
  · intro g code h
    have hfil : g.filter (fun r => r.cd_conta == code) = [] :=
      List.filter_eq_nil_iff.mpr (fun r hr => by simpa using h r hr)
    simp [get_account_value, sumAdjusted, hfil]
  · intro g code h
    have hfil : g.filter (fun r => strStartsWith r.cd_conta code) = [] :=
      List.filter_eq_nil_iff.mpr (fun r hr => by simp [h r hr])
    simp [get_account_value, sumAdjusted, hfil]

/-- Claim C3, witness: the unmatched-group conjuncts applied to a concrete
group with no `3.01` row. -/
theorem c3_exact_vs_prefix_matching_witness :
    get_account_value [demoRow "9.99" 5] "3.01" true = 0
    ∧ get_account_value [demoRow "9.99" 5] "3.01" false = 0 :=
  ⟨c3_exact_vs_prefix_matching.2.1 [demoRow "9.99" 5] "3.01" (by decide),
   c3_exact_vs_prefix_matching.2.2.1 [demoRow "9.99" 5] "3.01" (by decide)⟩

/-- Claim C4: for every group, `interest_paid` is the absolute value of the
starts-with sum over `6.01.02.02` when that sum is nonzero, and otherwise the
absolute value of the exact value of `3.06.02`; in particular a group whose
cash-flow rows sum to exactly `0` and whose income-statement value is `-50`
yields `interest_paid = 50`, not `0`. -/
theorem c4_interest_paid_fallback :
    (∀ (g : List EnrichedRow) (cnpj : String) (d : Date),
        get_account_value g "6.01.02.02" false ≠ 0 →
          (mkQuarterlyRecord cnpj d g).interest_paid
            = |get_account_value g "6.01.02.02" false|)
    ∧ (∀ (g : List EnrichedRow) (cnpj : String) (d : Date),
        get_account_value g "6.01.02.02" false = 0 →
          (mkQuarterlyRecord cnpj d g).interest_paid
            = |get_account_value g "3.06.02" true|)
    ∧ get_account_value interestDemoGroup "6.01.02.02" false = 0
    ∧ get_account_value interestDemoGroup "3.06.02" true = -50
    ∧ (mkQuarterlyRecord "c" ⟨2024, 3, 31⟩ interestDemoGroup).interest_paid = 50 := by
  refine ⟨?_, ?_, by decide, by decide, by decide⟩
  · intro g cnpj d h
    simp only [mkQuarterlyRecord]
    rw [if_pos h]
  · intro g cnpj d h
    simp only [mkQuarterlyRecord]
    rw [if_neg (by simp [h])]

/-- Claim C4, witness: the nonzero branch applied to a concrete group with a
single cash-flow interest row of value `7`. -/
theorem c4_interest_paid_fallback_witness :
    (mkQuarterlyRecord "c" ⟨2024, 3, 31⟩ [demoRow "6.01.02.02.05" 7]).interest_paid
      = |get_account_value [demoRow "6.01.02.02.05" 7] "6.01.02.02" false| :=
  c4_interest_paid_fallback.1 [demoRow "6.01.02.02.05" 7] "c" ⟨2024, 3, 31⟩ (by decide)

/-- Claim C7: in `FS_filter_and_clean`, when filtering the parsed table to the
configured company CNPJ yields zero rows, the stage fails with the assertion
error naming the file and the configured CNPJ, rather than continuing with an
empty table. -/
theorem c7_empty_after_cnpj_filter_fails (schema_columns : List String)
    (formatted_cnpj file_path : String) (csv : ParsedCSV)
    (hschema : csv.columns = schema_columns)
    (hempty : csv.rows.filter (fun r => r.cnpj_cia == formatted_cnpj) = []) :
    FS_filter_and_clean_file schema_columns formatted_cnpj file_path csv
      = .error (emptyFilterMsg file_path formatted_cnpj) := by
  unfold FS_filter_and_clean_file
  rw [hschema]
  simp [hempty]

/-- Claim C7, witness: a concrete file whose only row belongs to another
company. -/
theorem c7_empty_after_cnpj_filter_fails_witness :
    FS_filter_and_clean_file ["CNPJ_CIA"] "11.111.111/0001-11" "bronze/raw/f.csv"
        ⟨["CNPJ_CIA"], [demoStmtRow "22.222.222/0001-22"]⟩
      = .error (emptyFilterMsg "bronze/raw/f.csv" "11.111.111/0001-11") :=
  c7_empty_after_cnpj_filter_fails ["CNPJ_CIA"] "11.111.111/0001-11" "bronze/raw/f.csv"
    ⟨["CNPJ_CIA"], [demoStmtRow "22.222.222/0001-22"]⟩ rfl (by decide)

/-- Claim C8: in `FS_filter_and_clean`, parsing fails with the schema
assertion whenever the observed column list differs (including by order) from
the declared schema's column list, and conversely any successfully processed
file had exactly the declared columns — columns are never silently coerced or
dropped. -/
theorem c8_schema_mismatch_fails (schema_columns : List String)
    (formatted_cnpj file_path : String) (csv : ParsedCSV) :
    (csv.columns ≠ schema_columns →
      FS_filter_and_clean_file schema_columns formatted_cnpj file_path csv
        = .error schemaMismatchMsg)
    ∧ (∀ rows, FS_filter_and_clean_file schema_columns formatted_cnpj file_path csv
          = .ok rows → csv.columns = schema_columns) := by
  have key : csv.columns ≠ schema_columns →
      FS_filter_and_clean_file schema_columns formatted_cnpj file_path csv
        = .error schemaMismatchMsg := by
    intro h
    have hb : (csv.columns == schema_columns) = false := beq_eq_false_iff_ne.mpr h
    simp [FS_filter_and_clean_file, hb]
  refine ⟨key, ?_⟩
  intro rows hok
  by_contra hne
  rw [key hne] at hok
  exact Except.noConfusion hok

/-- Claim C8, witness: a concrete file whose columns are the declared
schema's in the wrong order is rejected. -/
theorem c8_schema_mismatch_fails_witness :
    FS_filter_and_clean_file ["CNPJ_CIA", "DT_REFER"] "11.111.111/0001-11" "bronze/raw/f.csv"
        ⟨["DT_REFER", "CNPJ_CIA"], []⟩
      = .error schemaMismatchMsg :=
  (c8_schema_mismatch_fails ["CNPJ_CIA", "DT_REFER"] "11.111.111/0001-11" "bronze/raw/f.csv"
    ⟨["DT_REFER", "CNPJ_CIA"], []⟩).1 (by decide)

/-! ## Helper lemmas -/

theorem mkQuarterlyRecord_issuer_cnpj (c : String) (d : Date) (g : List EnrichedRow) :
    (mkQuarterlyRecord c d g).issuer_cnpj = c := rfl

theorem mkQuarterlyRecord_date (c : String) (d : Date) (g : List EnrichedRow) :
    (mkQuarterlyRecord c d g).date = d := rfl

theorem mkQuarterlyRecord_quarter (c : String) (d : Date) (g : List EnrichedRow) :
    (mkQuarterlyRecord c d g).quarter = get_quarter d := rfl

theorem get_quarter_bounds (d : Date) : 1 ≤ get_quarter d ∧ get_quarter d ≤ 4 := by
  unfold get_quarter
  split_ifs <;> omega

theorem countP_key_of_nodup {α : Type} [DecidableEq α] (l : List α) (hl : l.Nodup) (k : α) :
    l.countP (fun x => decide (x = k)) = if k ∈ l then 1 else 0 := by
  induction l with
  | nil => simp
  | cons a t ih =>
    have ht : t.Nodup := (List.nodup_cons.mp hl).2
    have ha : a ∉ t := (List.nodup_cons.mp hl).1
    rw [List.countP_cons, ih ht]
    by_cases hk : a = k
    · subst hk
      simp [ha]
    · simp [hk, Ne.symm hk, List.mem_cons]

theorem foldl_maxStep_some (rows : List EnrichedRow) (a : Date) :
    ∃ m, rows.foldl maxStep (some a) = some m
      ∧ (m = a ∨ m ∈ rows.map (fun r => r.dt_fim_exerc))
      ∧ a.toKey ≤ m.toKey
      ∧ ∀ r ∈ rows, r.dt_fim_exerc.toKey ≤ m.toKey := by
  induction rows generalizing a with
  | nil => exact ⟨a, rfl, Or.inl rfl, le_refl _, by simp⟩
  | cons r t ih =>
    obtain ⟨m, hm, hmem, hle, hall⟩ :=
      ih (if a.toKey < r.dt_fim_exerc.toKey then r.dt_fim_exerc else a)
    have hab : a.toKey ≤ (if a.toKey < r.dt_fim_exerc.toKey then r.dt_fim_exerc else a).toKey := by
      split_ifs with hc <;> omega
    have hrb : r.dt_fim_exerc.toKey
        ≤ (if a.toKey < r.dt_fim_exerc.toKey then r.dt_fim_exerc else a).toKey := by
      split_ifs with hc <;> omega
    refine ⟨m, ?_, ?_, le_trans hab hle, ?_⟩
    · rw [List.foldl_cons]
      exact hm
    · rcases hmem with h | h
      · split_ifs at h with hc
        · right
          rw [h, List.map_cons]
          exact List.mem_cons_self _ _
        · exact Or.inl h
      · right
        rw [List.map_cons]
        exact List.mem_cons_of_mem _ h
    · intro x hx
      rcases List.mem_cons.mp hx with hx | hx
      · rw [hx]
        exact le_trans hrb hle
      · exact hall x hx

theorem maxEndOfPeriod_spec (rows : List EnrichedRow) (h : rows ≠ []) :
    ∃ m, maxEndOfPeriod rows = some m
      ∧ m ∈ rows.map (fun r => r.dt_fim_exerc)
      ∧ ∀ r ∈ rows, r.dt_fim_exerc.toKey ≤ m.toKey := by
  match rows, h with
  | x :: xs, _ =>
    obtain ⟨m, hm, hmem, _, hall⟩ := foldl_maxStep_some xs x.dt_fim_exerc
    refine ⟨m, ?_, ?_, ?_⟩
    · rw [maxEndOfPeriod, List.foldl_cons]
      exact hm
    · rw [List.map_cons]
      rcases hmem with h | h
      · rw [h]; exact List.mem_cons_self _ _
      · exact List.mem_cons_of_mem _ h
    · intro r hr
      rcases List.mem_cons.mp hr with hr | hr
      · rw [hr]
        rcases hmem with h | h
        · rw [h]
        · exact le_trans (le_refl _) (by
            rcases foldl_maxStep_some xs x.dt_fim_exerc with ⟨m', hm', _, hxm', _⟩
            rw [hm] at hm'
            cases hm'
            exact hxm')
      · exact hall r hr

theorem enrichedRowsOfAgg_length (tables : List CleanedTable) :
    (enrichedRowsOfAgg tables .INDIVIDUAL).length
        + (enrichedRowsOfAgg tables .CONSOLIDADO).length
      = (tables.map (fun t => t.rows.length)).sum := by
  induction tables with
  | nil => simp [enrichedRowsOfAgg]
  | cons t ts ih =>
    cases h : t.aggregation_type <;>
      simp [enrichedRowsOfAgg, List.filter_cons, h, enrichTable] at ih ⊢ <;>
      omega

theorem enrichedRowsOfAgg_agg_type (tables : List CleanedTable)
    (agg : CVMDocumentAggregationType) :
    ∀ r ∈ enrichedRowsOfAgg tables agg, r.enr_aggregation_type = agg := by
  intro r hr
  obtain ⟨l, hl, hrl⟩ := List.mem_flatten.mp hr
  obtain ⟨t, ht, rfl⟩ := List.mem_map.mp hl
  obtain ⟨x, _, rfl⟩ := List.mem_map.mp hrl
  have : t.aggregation_type = agg := by
    have := (List.mem_filter.mp ht).2
    simpa using this
  rw [← this]
  rfl

theorem enrichedRowsOfAgg_mem {tables : List CleanedTable} {t : CleanedTable}
    (ht : t ∈ tables) {r : StatementRow} (hr : r ∈ t.rows) :
    enrichRow t.aggregation_type r ∈ enrichedRowsOfAgg tables t.aggregation_type := by
  apply List.mem_flatten.mpr
  refine ⟨enrichTable t, ?_, ?_⟩
  · exact List.mem_map.mpr ⟨t, List.mem_filter.mpr ⟨ht, by simp⟩, rfl⟩
  · exact List.mem_map.mpr ⟨r, hr, rfl⟩

theorem dictInsert_of_fresh {α : Type} {d : List (String × α)} {k : String} (v : α)
    (h : ∀ p ∈ d, p.1 ≠ k) :
    dictInsert d k v = d ++ [(k, v)] := by
  have hany : d.any (fun p => p.1 == k) = false :=
    List.any_eq_false.mpr (fun p hp => by simp [h p hp])
  unfold dictInsert
  rw [hany]
  simp

theorem foldl_bucketStep_of_nodup (tables : List CleanedTable) :
    ∀ acc1 acc2 : List (String × List EnrichedRow),
      (tables.map (fun t => basename t.file_path)).Nodup →
      (∀ t ∈ tables, ∀ p ∈ acc1, p.1 ≠ basename t.file_path) →
      (∀ t ∈ tables, ∀ p ∈ acc2, p.1 ≠ basename t.file_path) →
      tables.foldl bucketStep (acc1, acc2)
        = (acc1 ++ (tables.filter
              (fun t => decide (t.aggregation_type = .INDIVIDUAL))).map
                (fun t => (basename t.file_path, enrichTable t)),
           acc2 ++ (tables.filter
              (fun t => decide (t.aggregation_type = .CONSOLIDADO))).map
                (fun t => (basename t.file_path, enrichTable t))) := by
  induction tables with
  | nil =>
    intro acc1 acc2 _ _ _
    simp
  | cons t ts ih =>
    intro acc1 acc2 hnodup hd1 hd2
    have hnodup' := hnodup
    rw [List.map_cons] at hnodup'
    have hhead : basename t.file_path ∉ ts.map (fun u => basename u.file_path) :=
      (List.nodup_cons.mp hnodup').1
    have htail : (ts.map (fun u => basename u.file_path)).Nodup :=
      (List.nodup_cons.mp hnodup').2
    have hne_ts : ∀ u ∈ ts, basename t.file_path ≠ basename u.file_path := by
      intro u hu he
      exact hhead (he ▸ List.mem_map.mpr ⟨u, hu, rfl⟩)
    rw [List.foldl_cons]
    cases hagg : t.aggregation_type with
    | INDIVIDUAL =>
      have hfresh1 : ∀ p ∈ acc1, p.1 ≠ basename t.file_path :=
        fun p hp => hd1 t (List.mem_cons_self _ _) p hp
      have hstep : bucketStep (acc1, acc2) t
          = (acc1 ++ [(basename t.file_path, enrichTable t)], acc2) := by
        simp [bucketStep, hagg, dictInsert_of_fresh _ hfresh1]
      rw [hstep,
        ih (acc1 ++ [(basename t.file_path, enrichTable t)]) acc2 htail
          (by
            intro u hu p hp
            rcases List.mem_append.mp hp with hp | hp
            · exact hd1 u (List.mem_cons_of_mem _ hu) p hp
            · rcases List.mem_singleton.mp hp with rfl
              exact hne_ts u hu)
          (fun u hu p hp => hd2 u (List.mem_cons_of_mem _ hu) p hp)]
      simp [List.filter_cons, hagg, List.append_assoc]
    | CONSOLIDADO =>
      have hfresh2 : ∀ p ∈ acc2, p.1 ≠ basename t.file_path :=
        fun p hp => hd2 t (List.mem_cons_self _ _) p hp
      have hstep : bucketStep (acc1, acc2) t
          = (acc1, acc2 ++ [(basename t.file_path, enrichTable t)]) := by
        simp [bucketStep, hagg, dictInsert_of_fresh _ hfresh2]
      rw [hstep,
        ih acc1 (acc2 ++ [(basename t.file_path, enrichTable t)]) htail
          (fun u hu p hp => hd1 u (List.mem_cons_of_mem _ hu) p hp)
          (by
            intro u hu p hp
            rcases List.mem_append.mp hp with hp | hp
            · exact hd2 u (List.mem_cons_of_mem _ hu) p hp
            · rcases List.mem_singleton.mp hp with rfl
              exact hne_ts u hu)]
      simp [List.filter_cons, hagg, List.append_assoc]

theorem FS_enrich_buckets_of_nodup (tables : List CleanedTable)
    (hnodup : (tables.map (fun t => basename t.file_path)).Nodup) :
    FS_enrich_buckets tables
      = ((tables.filter (fun t => decide (t.aggregation_type = .INDIVIDUAL))).map
           (fun t => (basename t.file_path, enrichTable t)),
         (tables.filter (fun t => decide (t.aggregation_type = .CONSOLIDADO))).map
           (fun t => (basename t.file_path, enrichTable t))) := by
  unfold FS_enrich_buckets
  rw [foldl_bucketStep_of_nodup tables [] [] hnodup (by simp) (by simp)]
  simp

theorem flatten_values_of_tagged (tables : List CleanedTable)
    (agg : CVMDocumentAggregationType) :
    ((((tables.filter (fun t => decide (t.aggregation_type = agg))).map
        (fun t => (basename t.file_path, enrichTable t))).map (fun p => p.2)).flatten)
      = enrichedRowsOfAgg tables agg := by
  unfold enrichedRowsOfAgg
  rw [List.map_map]
  rfl

/-- Claim C5, counterexample: the claim quantifies over any set of input
tables, but `FS_enrich` does not always partition them into two outputs whose
row counts sum to the input total: two input tables sharing a file basename
overwrite each other in the basename-keyed dict (3 input rows yield only 2
output rows), and an input set holding only one aggregation type makes
`pd.concat` raise on the empty dict, so no output is emitted at all. -/
theorem c5_aggregation_partition_counterexample :
    (FS_enrich c5CollidingTables).map
        (fun out => out.1.rows.length + out.2.rows.length) = .ok 2
    ∧ (c5CollidingTables.map (fun t => t.rows.length)).sum = 3
    ∧ FS_enrich c5IndOnlyTables = .error "No objects to concatenate" := by
  refine ⟨rfl, rfl, rfl⟩

/-- Claim C5, amended: provided the input tables' file basenames are pairwise
distinct and both aggregation types occur among the inputs, `FS_enrich`
succeeds and emits exactly two consolidated outputs, one per aggregation
type: every row of an output carries that output's aggregation type (so the
two outputs' aggregation-type values are disjoint), every input row lands in
the output of its table's provenance aggregation type and not in the other,
the two output row counts sum to the total input row count, and each
nonempty output is keyed by a reference date equal to the maximum
`DT_FIM_EXERC` observed in it. -/
theorem c5_aggregation_partition (tables : List CleanedTable)
    (hnodup : (tables.map (fun t => basename t.file_path)).Nodup)
    (hind : ∃ t ∈ tables, t.aggregation_type = .INDIVIDUAL)
    (hcon : ∃ t ∈ tables, t.aggregation_type = .CONSOLIDADO) :
    ∃ indOut conOut,
      FS_enrich tables = .ok (indOut, conOut)
      ∧ (∀ r ∈ indOut.rows, r.enr_aggregation_type = .INDIVIDUAL)
      ∧ (∀ r ∈ conOut.rows, r.enr_aggregation_type = .CONSOLIDADO)
      ∧ (∀ t ∈ tables, ∀ r ∈ t.rows,
          (t.aggregation_type = .INDIVIDUAL →
            enrichRow .INDIVIDUAL r ∈ indOut.rows
              ∧ enrichRow .INDIVIDUAL r ∉ conOut.rows)
          ∧ (t.aggregation_type = .CONSOLIDADO →
            enrichRow .CONSOLIDADO r ∈ conOut.rows
              ∧ enrichRow .CONSOLIDADO r ∉ indOut.rows))
      ∧ indOut.rows.length + conOut.rows.length
          = (tables.map (fun t => t.rows.length)).sum
      ∧ (indOut.rows ≠ [] → ∃ m, indOut.ref_date = some m
          ∧ m ∈ indOut.rows.map (fun r => r.dt_fim_exerc)
          ∧ ∀ r ∈ indOut.rows, r.dt_fim_exerc.toKey ≤ m.toKey)
      ∧ (conOut.rows ≠ [] → ∃ m, conOut.ref_date = some m
          ∧ m ∈ conOut.rows.map (fun r => r.dt_fim_exerc)
          ∧ ∀ r ∈ conOut.rows, r.dt_fim_exerc.toKey ≤ m.toKey) := by
  obtain ⟨ti, hti, htiagg⟩ := hind
  obtain ⟨tc, htc, htcagg⟩ := hcon
  have hindne : ((tables.filter (fun t => decide (t.aggregation_type = .INDIVIDUAL))).map
      (fun t => (basename t.file_path, enrichTable t))) ≠ [] :=
    List.ne_nil_of_mem
      (List.mem_map.mpr ⟨ti, List.mem_filter.mpr ⟨hti, by simp [htiagg]⟩, rfl⟩)
  have hconne : ((tables.filter (fun t => decide (t.aggregation_type = .CONSOLIDADO))).map
      (fun t => (basename t.file_path, enrichTable t))) ≠ [] :=
    List.ne_nil_of_mem
      (List.mem_map.mpr ⟨tc, List.mem_filter.mpr ⟨htc, by simp [htcagg]⟩, rfl⟩)
  have hcon' : concatDict
      ((tables.filter (fun t => decide (t.aggregation_type = .CONSOLIDADO))).map
        (fun t => (basename t.file_path, enrichTable t)))
      = .ok (enrichedRowsOfAgg tables .CONSOLIDADO) := by
    unfold concatDict
    rw [if_neg (fun hh => hconne (by simpa using hh))]
    rw [flatten_values_of_tagged]
  have hind' : concatDict
      ((tables.filter (fun t => decide (t.aggregation_type = .INDIVIDUAL))).map
        (fun t => (basename t.file_path, enrichTable t)))
      = .ok (enrichedRowsOfAgg tables .INDIVIDUAL) := by
    unfold concatDict
    rw [if_neg (fun hh => hindne (by simpa using hh))]
    rw [flatten_values_of_tagged]
  have hrun : FS_enrich tables = .ok
      ({ rows := enrichedRowsOfAgg tables .INDIVIDUAL
         ref_date := maxEndOfPeriod (enrichedRowsOfAgg tables .INDIVIDUAL) },
       { rows := enrichedRowsOfAgg tables .CONSOLIDADO
         ref_date := maxEndOfPeriod (enrichedRowsOfAgg tables .CONSOLIDADO) }) := by
    simp only [FS_enrich]
    rw [FS_enrich_buckets_of_nodup tables hnodup]
    rw [hcon', hind']
  refine ⟨_, _, hrun, ?_, ?_, ?_, enrichedRowsOfAgg_length tables, ?_, ?_⟩
  · exact enrichedRowsOfAgg_agg_type tables .INDIVIDUAL
  · exact enrichedRowsOfAgg_agg_type tables .CONSOLIDADO
  · intro t ht r hr
    constructor
    · intro hagg
      constructor
      · have := enrichedRowsOfAgg_mem ht hr
        rw [hagg] at this
        exact this
      · intro hmem
        have h1 := enrichedRowsOfAgg_agg_type tables .CONSOLIDADO _ hmem
        have h2 : (enrichRow .INDIVIDUAL r).enr_aggregation_type
            = CVMDocumentAggregationType.INDIVIDUAL := rfl
        rw [h1] at h2
        exact CVMDocumentAggregationType.noConfusion h2
    · intro hagg
      constructor
      · have := enrichedRowsOfAgg_mem ht hr
        rw [hagg] at this
        exact this
      · intro hmem
        have h1 := enrichedRowsOfAgg_agg_type tables .INDIVIDUAL _ hmem
        have h2 : (enrichRow .CONSOLIDADO r).enr_aggregation_type
            = CVMDocumentAggregationType.CONSOLIDADO := rfl
        rw [h1] at h2
        exact CVMDocumentAggregationType.noConfusion h2
  · exact maxEndOfPeriod_spec _
  · exact maxEndOfPeriod_spec _

/-- Claim C5 (amended), witness: the partition applied to a concrete pair of
tables with distinct basenames, one per aggregation type. -/
theorem c5_aggregation_partition_witness :
    ∃ indOut conOut,
      FS_enrich c5DemoTables = .ok (indOut, conOut)
      ∧ (∀ r ∈ indOut.rows, r.enr_aggregation_type = .INDIVIDUAL)
      ∧ (∀ r ∈ conOut.rows, r.enr_aggregation_type = .CONSOLIDADO)
      ∧ (∀ t ∈ c5DemoTables, ∀ r ∈ t.rows,
          (t.aggregation_type = .INDIVIDUAL →
            enrichRow .INDIVIDUAL r ∈ indOut.rows
              ∧ enrichRow .INDIVIDUAL r ∉ conOut.rows)
          ∧ (t.aggregation_type = .CONSOLIDADO →
            enrichRow .CONSOLIDADO r ∈ conOut.rows
              ∧ enrichRow .CONSOLIDADO r ∉ indOut.rows))
      ∧ indOut.rows.length + conOut.rows.length
          = (c5DemoTables.map (fun t => t.rows.length)).sum
      ∧ (indOut.rows ≠ [] → ∃ m, indOut.ref_date = some m
          ∧ m ∈ indOut.rows.map (fun r => r.dt_fim_exerc)
          ∧ ∀ r ∈ indOut.rows, r.dt_fim_exerc.toKey ≤ m.toKey)
      ∧ (conOut.rows ≠ [] → ∃ m, conOut.ref_date = some m
          ∧ m ∈ conOut.rows.map (fun r => r.dt_fim_exerc)
          ∧ ∀ r ∈ conOut.rows, r.dt_fim_exerc.toKey ≤ m.toKey) :=
  c5_aggregation_partition c5DemoTables (by decide) (by decide) (by decide)

/-- Claim C6: `calculate_detailed_financials_quarterly` emits exactly one
Quarterly Metric Record per `(CNPJ_CIA, DT_REFER)` group present in the
enriched input (a count of one for present keys, zero for absent ones), and
every emitted record's quarter is `get_quarter` of the record's date — a
value in `{1, 2, 3, 4}` determined solely by the date's month. -/
theorem c6_one_record_per_group :
    (∀ (df : List EnrichedRow) (k : String × Date),
        (calculate_detailed_financials_quarterly df).countP
            (fun rec => decide (rec.issuer_cnpj = k.1 ∧ rec.date = k.2))
          = if k ∈ df.map (fun r => (r.cnpj_cia, r.dt_refer)) then 1 else 0)
    ∧ (∀ (df : List EnrichedRow) (rec : QuarterlyMetricRecord),
        rec ∈ calculate_detailed_financials_quarterly df →
          rec.quarter = get_quarter rec.date ∧ 1 ≤ rec.quarter ∧ rec.quarter ≤ 4)
    ∧ (∀ d d' : Date, d.month = d'.month → get_quarter d = get_quarter d') := by
  refine ⟨?_, ?_, ?_⟩
  · intro df k
    unfold calculate_detailed_financials_quarterly
    rw [List.countP_map]
    have hfun : ((fun rec : QuarterlyMetricRecord =>
          decide (rec.issuer_cnpj = k.1 ∧ rec.date = k.2)) ∘
        (fun k' : String × Date => mkQuarterlyRecord k'.1 k'.2
          (df.filter (fun r => decide ((r.cnpj_cia, r.dt_refer) = k')))))
        = fun k' => decide (k' = k) := by
      funext k'
      simp only [Function.comp_apply, mkQuarterlyRecord_issuer_cnpj, mkQuarterlyRecord_date]
      rw [decide_eq_decide]
      exact Prod.ext_iff.symm
    rw [hfun]
    unfold groupKeys
    rw [countP_key_of_nodup _ (List.nodup_dedup _) k]
    simp [List.mem_dedup]
  · intro df rec hrec
    obtain ⟨k', _, rfl⟩ := List.mem_map.mp hrec
    refine ⟨?_, ?_⟩
    · rw [mkQuarterlyRecord_quarter, mkQuarterlyRecord_date]
    · rw [mkQuarterlyRecord_quarter]
      exact get_quarter_bounds _
  · intro d d' h
    unfold get_quarter
    rw [h]

/-- Claim C6, witness: the count and quarter facts applied to a concrete
one-row table. -/
theorem c6_one_record_per_group_witness :
    (calculate_detailed_financials_quarterly [demoRow "3.01" 100]).countP
        (fun rec => decide (rec.issuer_cnpj = "11.111.111/0001-11"
          ∧ rec.date = (⟨2024, 3, 31⟩ : Date)))
      = 1
    ∧ ∀ rec ∈ calculate_detailed_financials_quarterly [demoRow "3.01" 100],
        rec.quarter = get_quarter rec.date ∧ 1 ≤ rec.quarter ∧ rec.quarter ≤ 4 := by
  constructor
  · rw [c6_one_record_per_group.1 [demoRow "3.01" 100]
      ("11.111.111/0001-11", (⟨2024, 3, 31⟩ : Date))]
    decide
  · intro rec hrec
    exact c6_one_record_per_group.2.1 [demoRow "3.01" 100] rec hrec

/-! ## Helper lemmas about the object store -/

end CaseSS
